import Mathlib

/-!
Shallow embedding of the KREPS client (`src/frontend/src/App.js`, and the
near-identical `src/unnamed/part_000`): the session and ingestion
orchestrator of a browser client for a RAG backend.

The React state hooks become the fields of `AppState`; each asynchronous
handler is split at its `await` points into a start phase (synchronous
mutations plus the issued request) and a resolve phase (the reconciliation
applied when the fetch settles).  A fetch is modelled by `FetchResult`:
JavaScript `fetch` rejects only on transport errors, a response carries an
HTTP ok flag that the code never consults, and `response.json()` either
yields a parsed body or throws (`body = none`).  Status updates through
`setProcessingStatus(prev => ({...prev, [id]: v}))` become `setStatus` on an
association list keyed by job id.
-/

namespace Kreps

/-- `const API_BASE = 'http://localhost:8000'` in App.js. -/
def API_BASE : String := "http://localhost:8000"

/-- Message role: the `role` field of a transcript entry. -/
inductive Role
  | user
  | assistant
deriving DecidableEq, Repr

/-- A source citation attached to an assistant message
(`{filename, page, relevance}` objects of the query response). -/
structure Citation where
  filename : String
  page : Int
  relevance : ℚ
deriving DecidableEq, Repr

/-- One transcript entry, as built in App.js.  `content` is `Option` because
`data.answer` may be absent (JavaScript `undefined`); `sources` is `Option`
because the greeting, user and error messages carry no `sources` field at
all, while success messages carry a (possibly empty) list. -/
structure Message where
  id : String
  role : Role
  content : Option String
  sources : Option (List Citation)
  timestamp : Nat
deriving DecidableEq, Repr

/-- Upload-job lifecycle status, the values stored in `processingStatus`
(and the default `pending`). -/
inductive JobStatus
  | pending
  | processing
  | completed
  | error
deriving DecidableEq, Repr

/-- A selected file as the handler reads it: `file.name` and `file.size`. -/
structure FileDesc where
  name : String
  size : Nat
deriving DecidableEq, Repr

/-- `file.name.split('.').pop().toLowerCase()` in `handleFileUpload`. -/
def extOf (name : String) : String :=
  ((name.splitOn ".").getLastD "").toLower

/-- One entry of `uploadedFiles`, as synthesized in `handleFileUpload`.
The `status` field is written once as `'pending'` and never updated; the
displayed status lives in the separate `processingStatus` map. -/
structure UploadJob where
  id : String
  name : String
  size : Nat
  type : String
  status : JobStatus
deriving DecidableEq, Repr

/-- The `collectionInfo` state object. -/
structure CollectionSummary where
  document_count : Int
  total_chunks : Int
deriving DecidableEq, Repr

/-- Outcome of a `fetch` call as the handlers can observe it:
`transportError` is a rejected promise (network down, connection refused);
`response ok body` is an HTTP response with `response.ok = ok` and
`body = some v` when `response.json()` parses to `v`, `none` when
`response.json()` throws.  Note that a non-2xx response is `response false
(some v)` whenever its body is valid JSON: `fetch` does not reject on HTTP
error statuses. -/
inductive FetchResult (α : Type)
  | transportError
  | response (ok : Bool) (body : Option α)
deriving DecidableEq, Repr

/-- The `collection` object of the health response; only `document_count`
is consumed. -/
structure HealthCollection where
  document_count : Int
deriving DecidableEq, Repr

/-- Parsed JSON body of the `/health` response.  `collection` is `Option`:
when absent, `data.collection.document_count` throws a TypeError which the
surrounding `try` swallows. -/
structure HealthBody where
  collection : Option HealthCollection
deriving DecidableEq, Repr

/-- Parsed JSON body of the `/upload` response: an array whose length alone
is consumed (`results.length`). -/
abbrev UploadBody := List Unit

/-- Parsed JSON body of the `/query` response.  Both fields are `Option`:
`data.answer` is read verbatim (possibly `undefined`), `data.sources || []`
defaults a missing list to empty. -/
structure QueryBody where
  answer : Option String
  sources : Option (List Citation)
deriving DecidableEq, Repr

/-- A backend request issued by a handler. -/
inductive Request
  | health
  | upload (files : List FileDesc)
  | query (query : String) (n_results : Nat)
deriving DecidableEq, Repr

/-- The mutable session state: one field per React state hook that the
orchestrator reads or writes (rendering-only state is out of scope). -/
structure AppState where
  messages : List Message
  inputMessage : String
  isThinking : Bool
  uploadedFiles : List UploadJob
  processingStatus : List (String × JobStatus)
  collectionInfo : CollectionSummary
deriving DecidableEq, Repr

/-- Result of one handler phase: the next state, the backend requests it
issued, and the `alert(...)` notices it showed. -/
structure StepOut where
  state : AppState
  requests : List Request
  alerts : List String
deriving DecidableEq, Repr

/-- The fixed greeting seeding the transcript (`useState([{id:'1', ...}])`). -/
def greetingMessage (t0 : Nat) : Message :=
  { id := "1"
    role := .assistant
    content := some "Hello! I can help you find information from the document database. Ask me anything!"
    sources := none
    timestamp := t0 }

/-- The initial session state, at start instant `t0`. -/
def initState (t0 : Nat) : AppState :=
  { messages := [greetingMessage t0]
    inputMessage := ""
    isThinking := false
    uploadedFiles := []
    processingStatus := []
    collectionInfo := { document_count := 0, total_chunks := 0 } }

/-- `processingStatus[id]`: first binding of `id` in the map, if any. -/
def getStatus (m : List (String × JobStatus)) (id : String) : Option JobStatus :=
  (m.find? (fun p => p.1 == id)).map Prod.snd

/-- `{...prev, [id]: v}`: overwrite the binding of `id` in place when it
exists, otherwise add it at the end (JavaScript object key order). -/
def setStatus (m : List (String × JobStatus)) (id : String) (v : JobStatus) :
    List (String × JobStatus) :=
  if m.any (fun p => p.1 == id) then
    m.map (fun p => if p.1 == id then (id, v) else p)
  else
    m ++ [(id, v)]

/-- `delete newStatus[fileId]` on a copy of the map (in `removeFile`). -/
def delStatus (m : List (String × JobStatus)) (id : String) :
    List (String × JobStatus) :=
  m.filter (fun p => p.1 != id)

/-- The status the UI shows for a job: `processingStatus[file.id] || 'pending'`. -/
def effStatus (s : AppState) (id : String) : JobStatus :=
  (getStatus s.processingStatus id).getD .pending

/-- The Ingestion Tracker as the spec models it: each tracked job paired
with its visible status. -/
def trackerView (s : AppState) : List (UploadJob × JobStatus) :=
  s.uploadedFiles.map (fun j => (j, effStatus s j.id))

/-- `loadCollectionInfo`, applied to a settled health fetch: on any path
that throws inside the `try` (transport error, `response.json()` failure,
or `data.collection` undefined) the previous value is kept; otherwise both
fields are overwritten with `data.collection.document_count`.  The HTTP ok
flag is never consulted. -/
def loadCollectionInfo (prev : CollectionSummary) (r : FetchResult HealthBody) :
    CollectionSummary :=
  match r with
  | .transportError => prev
  | .response _ none => prev
  | .response _ (some body) =>
      match body.collection with
      | none => prev
      | some c => { document_count := c.document_count, total_chunks := c.document_count }

/-- The `user` message built in `handleSendMessage` (`id` is
`Date.now().toString()`, content the untrimmed input). -/
def userMessageOf (text : String) (now : Nat) : Message :=
  { id := toString now, role := .user, content := some text, sources := none, timestamp := now }

/-- JavaScript `String.prototype.trim()`: the string with leading and
trailing whitespace removed (structural recursion over the character
list, so that concrete instances evaluate). -/
def jsTrim (s : String) : String :=
  String.mk (((s.data.dropWhile Char.isWhitespace).reverse.dropWhile
    Char.isWhitespace).reverse)

/-- Synchronous prefix of `handleSendMessage`, up to the `await fetch`:
guard `if (!inputMessage.trim() || isThinking) return`, append the user
message, clear the input buffer, raise `isThinking`, issue the query
request (whose body captures the pre-clear `inputMessage`). -/
def handleSendMessageStart (s : AppState) (now : Nat) : StepOut :=
  if jsTrim s.inputMessage = "" ∨ s.isThinking = true then
    { state := s, requests := [], alerts := [] }
  else
    { state :=
        { s with
          messages := s.messages ++ [userMessageOf s.inputMessage now]
          inputMessage := ""
          isThinking := true }
      requests := [.query s.inputMessage 5]
      alerts := [] }

/-- The synthetic error content of the `catch` branch of `handleSendMessage`. -/
def failureNotice : String :=
  "Sorry, I encountered an error. Please make sure the backend is running at " ++ API_BASE

/-- The assistant message `handleSendMessage` appends once its fetch
settles: if `response.json()` yields a body, content is `data.answer` and
sources `data.sources || []` (the ok flag is ignored); on transport error
or parse failure, the fixed `failureNotice` with no sources field. -/
def assistantMessageOf (now : Nat) (r : FetchResult QueryBody) : Message :=
  match r with
  | .response _ (some body) =>
      { id := toString (now + 1)
        role := .assistant
        content := body.answer
        sources := some (body.sources.getD [])
        timestamp := now }
  | _ =>
      { id := toString (now + 1)
        role := .assistant
        content := some failureNotice
        sources := none
        timestamp := now }

/-- Continuation of `handleSendMessage` after its fetch settles: append the
assistant message and lower `isThinking` (the `setIsThinking(false)` after
the try/catch runs on every path). -/
def handleSendMessageResolve (s : AppState) (now : Nat) (r : FetchResult QueryBody) :
    StepOut :=
  { state :=
      { s with
        messages := s.messages ++ [assistantMessageOf now r]
        isThinking := false }
    requests := []
    alerts := [] }

/-- One `uploadedFiles` entry as `handleFileUpload` synthesizes it. -/
def mkJob (f : FileDesc) (id : String) : UploadJob :=
  { id := id, name := f.name, size := f.size, type := extOf f.name, status := .pending }

/-- `setUploadedFiles(prev => [...prev, ...newFiles])`: the optimistic
append of the new jobs, before any network I/O.  `ids` are the
client-generated random ids, one per file. -/
def uploadAppend (s : AppState) (files : List FileDesc) (ids : List String) : AppState :=
  { s with uploadedFiles := s.uploadedFiles ++ List.zipWith mkJob files ids }

/-- `newFiles.forEach(file => setProcessingStatus(prev => ({...prev,
[file.id]: v})))`: fold `setStatus` over the batch ids. -/
def markAll (m : List (String × JobStatus)) (ids : List String) (v : JobStatus) :
    List (String × JobStatus) :=
  ids.foldl (fun acc id => setStatus acc id v) m

/-- Mark every job of the batch `processing` (the forEach just before the
upload fetch). -/
def uploadMarkProcessing (s : AppState) (ids : List String) : AppState :=
  { s with processingStatus := markAll s.processingStatus ids .processing }

/-- Synchronous prefix of `handleFileUpload`, up to the `await fetch`:
empty selection is a no-op; otherwise append the jobs in `pending`, mark
them all `processing`, and issue the single batch upload request. -/
def handleFileUploadStart (s : AppState) (files : List FileDesc) (ids : List String) :
    StepOut :=
  if files.isEmpty then
    { state := s, requests := [], alerts := [] }
  else
    { state := uploadMarkProcessing (uploadAppend s files ids) ids
      requests := [.upload files]
      alerts := [] }

/-- The success `alert` of `handleFileUpload`. -/
def uploadSuccessAlert (n : Nat) : String :=
  "Successfully uploaded " ++ toString n ++ " document(s)"

/-- The failure `alert` of `handleFileUpload`. -/
def uploadFailureAlert : String :=
  "Upload failed. Make sure the backend is running at " ++ API_BASE

/-- Continuation of `handleFileUpload` after its fetch settles, for the
batch with ids `batchIds`.  When `response.json()` yields a body the try
block completes: every batch job is marked `completed`, the Collection
Summary Cache is refreshed by a nested `loadCollectionInfo()` call (its
own fetch settling with result `health`), and the success alert shows.
On transport error or parse failure the catch runs: failure alert, every
batch job marked `error`, no refresh.  The HTTP ok flag is never
consulted. -/
def handleFileUploadResolve (s : AppState) (batchIds : List String)
    (r : FetchResult UploadBody) (health : FetchResult HealthBody) : StepOut :=
  match r with
  | .response _ (some results) =>
      { state :=
          { s with
            processingStatus := markAll s.processingStatus batchIds .completed
            collectionInfo := loadCollectionInfo s.collectionInfo health }
        requests := [.health]
        alerts := [uploadSuccessAlert results.length] }
  | _ =>
      { state := { s with processingStatus := markAll s.processingStatus batchIds .error }
        requests := []
        alerts := [uploadFailureAlert] }

/-- `removeFile(fileId)`: drop matching jobs from `uploadedFiles` and the
binding from `processingStatus`; no fetch, no alert. -/
def removeFile (s : AppState) (fileId : String) : StepOut :=
  { state :=
      { s with
        uploadedFiles := s.uploadedFiles.filter (fun f => f.id != fileId)
        processingStatus := delStatus s.processingStatus fileId }
    requests := []
    alerts := [] }

/-- The standalone `loadCollectionInfo()` invocation (session start), as a
step applied when its fetch settles. -/
def healthRefresh (s : AppState) (r : FetchResult HealthBody) : StepOut :=
  { state := { s with collectionInfo := loadCollectionInfo s.collectionInfo r }
    requests := []
    alerts := [] }

/-- Every state-mutating step of the orchestrator, with the external
inputs (clock readings, generated ids, settled fetch results) embedded. -/
inductive Op
  | sendStart (now : Nat)
  | sendResolve (now : Nat) (r : FetchResult QueryBody)
  | uploadStart (files : List FileDesc) (ids : List String)
  | uploadResolve (batchIds : List String) (r : FetchResult UploadBody)
      (health : FetchResult HealthBody)
  | removeJob (fileId : String)
  | refreshResolve (r : FetchResult HealthBody)

/-- Dispatch one step. -/
def step (s : AppState) (op : Op) : StepOut :=
  match op with
  | .sendStart now => handleSendMessageStart s now
  | .sendResolve now r => handleSendMessageResolve s now r
  | .uploadStart files ids => handleFileUploadStart s files ids
  | .uploadResolve batchIds r health => handleFileUploadResolve s batchIds r health
  | .removeJob fileId => removeFile s fileId
  | .refreshResolve r => healthRefresh s r

/-- States reachable from some initial state by orchestrator steps. -/
inductive Reachable : AppState → Prop
  | init (t0 : Nat) : Reachable (initState t0)
  | next {s : AppState} (op : Op) : Reachable s → Reachable (step s op).state

/-! ### Association-map lemmas for the status map -/

theorem find_map_overwrite (m : List (String × JobStatus)) (id : String)
    (v : JobStatus) (h : m.any (fun p => p.1 == id) = true) :
    (m.map (fun p => if p.1 == id then (id, v) else p)).find?
      (fun p => p.1 == id) = some (id, v) := by
  induction m with
  | nil => simp at h
  | cons p t ih =>
      by_cases hp : (p.1 == id) = true
      · simp [List.find?, hp]
      · have ht : t.any (fun q => q.1 == id) = true := by
          simp only [List.any_cons, hp, Bool.false_or] at h
          exact h
        simpa [List.find?, hp] using ih ht

theorem find_map_overwrite_other (m : List (String × JobStatus)) (id x : String)
    (v : JobStatus) (hx : x ≠ id) :
    (m.map (fun p => if p.1 == id then (id, v) else p)).find?
      (fun p => p.1 == x) = m.find? (fun p => p.1 == x) := by
  induction m with
  | nil => simp
  | cons p t ih =>
      by_cases hp : (p.1 == id) = true
      · have hid : p.1 = id := by simpa using hp
        have h1 : (id == x) = false := by
          simp only [beq_eq_false_iff_ne]
          exact fun h => hx h.symm
        have h2 : (p.1 == x) = false := by rw [hid]; exact h1
        simpa [List.find?, hp, h1, h2] using ih
      · by_cases hpx : (p.1 == x) = true
        · simp [List.find?, hp, hpx]
        · simpa [List.find?, hp, hpx] using ih

theorem find_none_of_not_any (m : List (String × JobStatus)) (id : String)
    (h : m.any (fun p => p.1 == id) = false) :
    m.find? (fun p => p.1 == id) = none := by
  induction m with
  | nil => rfl
  | cons p t ih =>
      simp only [List.any_cons, Bool.or_eq_false_iff] at h
      simp [List.find?, h.1, ih h.2]

theorem getStatus_setStatus_self (m : List (String × JobStatus)) (id : String)
    (v : JobStatus) : getStatus (setStatus m id v) id = some v := by
  unfold setStatus getStatus
  by_cases hany : m.any (fun p => p.1 == id) = true
  · rw [if_pos hany, find_map_overwrite m id v hany]
    rfl
  · have hfalse : m.any (fun p => p.1 == id) = false := by
      revert hany
      cases m.any (fun p => p.1 == id) <;> simp
    rw [if_neg hany, List.find?_append, find_none_of_not_any m id hfalse]
    simp [List.find?]

theorem getStatus_setStatus_other (m : List (String × JobStatus)) (id x : String)
    (v : JobStatus) (hx : x ≠ id) :
    getStatus (setStatus m id v) x = getStatus m x := by
  unfold setStatus getStatus
  by_cases hany : m.any (fun p => p.1 == id) = true
  · rw [if_pos hany, find_map_overwrite_other m id x v hx]
  · have h1 : (id == x) = false := by
      simp only [beq_eq_false_iff_ne]
      exact fun h => hx h.symm
    rw [if_neg hany, List.find?_append]
    cases hfind : m.find? (fun p => p.1 == x) with
    | some q => simp [hfind]
    | none => simp [hfind, List.find?, h1]

theorem getStatus_markAll_other (ids : List String) :
    ∀ (m : List (String × JobStatus)) (v : JobStatus) (x : String), x ∉ ids →
    getStatus (markAll m ids v) x = getStatus m x := by
  induction ids with
  | nil =>
      intro m v x _
      rfl
  | cons id rest ih =>
      intro m v x hx
      have hxid : x ≠ id := fun h => hx (h ▸ List.mem_cons_self id rest)
      have hxr : x ∉ rest := fun h => hx (List.mem_cons_of_mem id h)
      calc getStatus (markAll (setStatus m id v) rest v) x
          = getStatus (setStatus m id v) x := ih (setStatus m id v) v x hxr
        _ = getStatus m x := getStatus_setStatus_other m id x v hxid

theorem getStatus_markAll_mem (ids : List String) :
    ∀ (m : List (String × JobStatus)) (v : JobStatus) (x : String), x ∈ ids →
    getStatus (markAll m ids v) x = some v := by
  induction ids with
  | nil =>
      intro m v x hx
      cases hx
  | cons id rest ih =>
      intro m v x hx
      by_cases hr : x ∈ rest
      · exact ih (setStatus m id v) v x hr
      · have hxid : x = id := by
          cases hx with
          | head => rfl
          | tail _ h => exact absurd h hr
        subst hxid
        calc getStatus (markAll (setStatus m x v) rest v) x
            = getStatus (setStatus m x v) x := getStatus_markAll_other rest (setStatus m x v) v x hr
          _ = some v := getStatus_setStatus_self m x v

theorem getStatus_delStatus_other (m : List (String × JobStatus)) (id x : String)
    (hx : x ≠ id) : getStatus (delStatus m id) x = getStatus m x := by
  unfold delStatus getStatus
  induction m with
  | nil => rfl
  | cons p t ih =>
      by_cases hp : (p.1 == id) = true
      · have hid : p.1 = id := by simpa using hp
        have h2 : (p.1 == x) = false := by
          rw [hid]
          simp only [beq_eq_false_iff_ne]
          exact fun h => hx h.symm
        simpa [List.filter, List.find?, hp, bne, h2] using ih
      · by_cases hpx : (p.1 == x) = true
        · simp [List.filter, List.find?, hp, bne, hpx]
        · simpa [List.filter, List.find?, hp, bne, hpx] using ih

theorem getStatus_delStatus_self (m : List (String × JobStatus)) (id : String) :
    getStatus (delStatus m id) id = none := by
  unfold delStatus getStatus
  induction m with
  | nil => rfl
  | cons p t ih =>
      by_cases hp : (p.1 == id) = true
      · simp [List.filter, bne, hp]
      · simp [List.filter, List.find?, bne, hp]

theorem length_filter_not_of_countP_one {α : Type} (p : α → Bool) :
    ∀ l : List α, l.countP p = 1 → (l.filter (fun a => !p a)).length + 1 = l.length := by
  intro l
  induction l with
  | nil => intro h; simp at h
  | cons a t ih =>
      intro h
      rw [List.countP_cons] at h
      by_cases hpa : p a = true
      · rw [if_pos hpa] at h
        have ht : t.countP p = 0 := by omega
        have hall : ∀ b ∈ t, ¬ p b = true := List.countP_eq_zero.mp ht
        have hkeep : t.filter (fun b => !p b) = t := by
          apply List.filter_eq_self.mpr
          intro b hb
          simp [hall b hb]
        simp [List.filter_cons, hpa, hkeep]
      · have hpa' : p a = false := by
          revert hpa
          cases p a <;> simp
        rw [hpa'] at h
        simp at h
        have h2 := ih h
        simp [List.filter_cons, hpa']
        omega

/-! ### Claim theorems -/

/-- C3: submitting a query is a no-op — transcript, flag and input buffer
unchanged, no request issued, no alert — whenever the typed text is empty
after trimming whitespace, and also whenever `isThinking` ("awaiting
response") is already true, regardless of the text. -/
theorem C3_submitQuery_noop (s : AppState) (now : Nat)
    (h : jsTrim s.inputMessage = "" ∨ s.isThinking = true) :
    handleSendMessageStart s now = { state := s, requests := [], alerts := [] } := by
  unfold handleSendMessageStart
  rw [if_pos h]

/-- A session state whose input buffer holds only whitespace. -/
def blankInputState : AppState :=
  { initState 0 with inputMessage := "   " }

/-- Witness for C3 at whitespace-only input. -/
theorem C3_submitQuery_noop_witness :
    handleSendMessageStart blankInputState 7 =
      { state := blankInputState, requests := [], alerts := [] } :=
  C3_submitQuery_noop blankInputState 7 (Or.inl (by decide))

/-- C5: `removeFile` never issues a backend call or alert; on an id
matching no tracked job it leaves the job sequence, every tracked job's
visible status, and all other session state unchanged; on an id with
exactly one matching job it shrinks the sequence by exactly one and the id
is absent afterward. -/
theorem C5_removeJob (s : AppState) (fileId : String) :
    (removeFile s fileId).requests = [] ∧
    (removeFile s fileId).alerts = [] ∧
    ((∀ j ∈ s.uploadedFiles, j.id ≠ fileId) →
      (removeFile s fileId).state.uploadedFiles = s.uploadedFiles ∧
      trackerView (removeFile s fileId).state = trackerView s ∧
      (removeFile s fileId).state.messages = s.messages ∧
      (removeFile s fileId).state.isThinking = s.isThinking ∧
      (removeFile s fileId).state.inputMessage = s.inputMessage ∧
      (removeFile s fileId).state.collectionInfo = s.collectionInfo) ∧
    (s.uploadedFiles.countP (fun j => j.id == fileId) = 1 →
      (removeFile s fileId).state.uploadedFiles.length + 1 = s.uploadedFiles.length ∧
      ∀ j ∈ (removeFile s fileId).state.uploadedFiles, j.id ≠ fileId) := by
  refine ⟨rfl, rfl, ?_, ?_⟩
  · intro h
    have hfilter : s.uploadedFiles.filter (fun f => f.id != fileId) = s.uploadedFiles := by
      apply List.filter_eq_self.mpr
      intro j hj
      simp only [bne_iff_ne, ne_eq, decide_not]
      simp [h j hj]
    refine ⟨hfilter, ?_, rfl, rfl, rfl, rfl⟩
    unfold trackerView
    show ((removeFile s fileId).state.uploadedFiles).map _ = _
    rw [show (removeFile s fileId).state.uploadedFiles
          = s.uploadedFiles.filter (fun f => f.id != fileId) from rfl, hfilter]
    apply List.map_congr_left
    intro j hj
    have hne : j.id ≠ fileId := h j hj
    unfold effStatus
    rw [show (removeFile s fileId).state.processingStatus
          = delStatus s.processingStatus fileId from rfl]
    rw [getStatus_delStatus_other s.processingStatus fileId j.id hne]
  · intro hcount
    constructor
    · have hfil : s.uploadedFiles.filter (fun f => f.id != fileId)
          = s.uploadedFiles.filter (fun f => !(fun j => j.id == fileId) f) := by
        apply List.filter_congr
        intro j _
        simp [bne]
      show (s.uploadedFiles.filter (fun f => f.id != fileId)).length + 1 = _
      rw [hfil]
      exact length_filter_not_of_countP_one (fun j => j.id == fileId) s.uploadedFiles hcount
    · intro j hj
      have := (List.mem_filter.mp hj).2
      exact bne_iff_ne.mp this

/-- A tracked job used by the C5 witness. -/
def jobA1 : UploadJob :=
  { id := "a1", name := "a.txt", size := 1, type := "txt", status := .pending }

/-- A session state tracking exactly the job `jobA1`. -/
def oneJobState : AppState :=
  { initState 0 with uploadedFiles := [jobA1] }

/-- Witness for C5: removing an absent id from a one-job tracker leaves
the job sequence unchanged. -/
theorem C5_removeJob_witness :
    (removeFile oneJobState "zz").state.uploadedFiles = oneJobState.uploadedFiles :=
  ((C5_removeJob oneJobState "zz").2.2.1 (by decide)).1

/-- C9: when an upload batch resolves (success or failure), only the
statuses of that batch's job ids change: any id outside the batch keeps
its visible status, and the job sequence itself, the transcript and the
awaiting-response flag are untouched. -/
theorem C9_batch_isolation (s : AppState) (batchIds : List String)
    (r : FetchResult UploadBody) (health : FetchResult HealthBody)
    (x : String) (hx : x ∉ batchIds) :
    (handleFileUploadResolve s batchIds r health).state.uploadedFiles = s.uploadedFiles ∧
    effStatus (handleFileUploadResolve s batchIds r health).state x = effStatus s x ∧
    (handleFileUploadResolve s batchIds r health).state.messages = s.messages ∧
    (handleFileUploadResolve s batchIds r health).state.isThinking = s.isThinking := by
  have key : ∀ v : JobStatus,
      (getStatus (markAll s.processingStatus batchIds v) x).getD .pending =
      (getStatus s.processingStatus x).getD .pending := by
    intro v
    rw [getStatus_markAll_other batchIds s.processingStatus v x hx]
  cases r with
  | transportError => exact ⟨rfl, key .error, rfl, rfl⟩
  | response ok body =>
      cases body with
      | none => exact ⟨rfl, key .error, rfl, rfl⟩
      | some results => exact ⟨rfl, key .completed, rfl, rfl⟩

/-- Witness for C9: resolving a batch over id `a1` leaves the status of
`b2` untouched. -/
theorem C9_batch_isolation_witness :
    effStatus (handleFileUploadResolve (initState 0) ["a1"] .transportError
        .transportError).state "b2"
      = effStatus (initState 0) "b2" :=
  (C9_batch_isolation (initState 0) ["a1"] .transportError .transportError "b2"
    (by decide)).2.1

/-- C4: a non-empty selection of N files creates exactly N jobs, all
visible as `pending` before any network I/O; the start phase then marks
them all `processing` and issues the single batch request; and whichever
way that request settles, the batch ends with every job `completed` or
every job `error` — never a mixed outcome. -/
theorem C4_batch_lifecycle (s : AppState) (files : List FileDesc) (ids : List String)
    (hne : files ≠ []) (hlen : ids.length = files.length)
    (hfresh : ∀ id ∈ ids, getStatus s.processingStatus id = none) :
    (uploadAppend s files ids).uploadedFiles.length
        = s.uploadedFiles.length + files.length ∧
    (∀ id ∈ ids, effStatus (uploadAppend s files ids) id = .pending) ∧
    (handleFileUploadStart s files ids).state
        = uploadMarkProcessing (uploadAppend s files ids) ids ∧
    (handleFileUploadStart s files ids).requests = [.upload files] ∧
    (∀ id ∈ ids, effStatus (handleFileUploadStart s files ids).state id = .processing) ∧
    (∀ (r : FetchResult UploadBody) (health : FetchResult HealthBody),
      (∀ id ∈ ids, effStatus (handleFileUploadResolve
          (handleFileUploadStart s files ids).state ids r health).state id = .completed) ∨
      (∀ id ∈ ids, effStatus (handleFileUploadResolve
          (handleFileUploadStart s files ids).state ids r health).state id = .error)) := by
  have hni : ¬(files.isEmpty = true) := by
    cases files with
    | nil => exact absurd rfl hne
    | cons f t => simp
  have hstart : handleFileUploadStart s files ids
      = { state := uploadMarkProcessing (uploadAppend s files ids) ids
          requests := [.upload files], alerts := [] } := by
    unfold handleFileUploadStart
    rw [if_neg hni]
  refine ⟨?_, ?_, by rw [hstart], by rw [hstart], ?_, ?_⟩
  · show (s.uploadedFiles ++ List.zipWith mkJob files ids).length = _
    rw [List.length_append, List.length_zipWith, hlen, Nat.min_self]
  · intro id hid
    show (getStatus s.processingStatus id).getD .pending = .pending
    rw [hfresh id hid]
    rfl
  · intro id hid
    rw [hstart]
    show (getStatus (markAll (uploadAppend s files ids).processingStatus ids
        .processing) id).getD .pending = .processing
    rw [getStatus_markAll_mem ids _ .processing id hid]
    rfl
  · intro r health
    cases r with
    | transportError =>
        right
        intro id hid
        show (getStatus (markAll _ ids .error) id).getD .pending = .error
        rw [getStatus_markAll_mem ids _ .error id hid]
        rfl
    | response ok body =>
        cases body with
        | none =>
            right
            intro id hid
            show (getStatus (markAll _ ids .error) id).getD .pending = .error
            rw [getStatus_markAll_mem ids _ .error id hid]
            rfl
        | some results =>
            left
            intro id hid
            show (getStatus (markAll _ ids .completed) id).getD .pending = .completed
            rw [getStatus_markAll_mem ids _ .completed id hid]
            rfl

/-- Witness for C4 on a one-file batch: the job is visible `processing`
after dispatch. -/
theorem C4_batch_lifecycle_witness :
    effStatus (handleFileUploadStart (initState 0)
        [{ name := "a.txt", size := 1 }] ["x1"]).state "x1" = .processing :=
  (C4_batch_lifecycle (initState 0) [{ name := "a.txt", size := 1 }] ["x1"]
    (by decide) (by decide) (fun id _ => rfl)).2.2.2.2.1 "x1" (by decide)

/-- A two-file batch dispatched from the initial state, whose upload fetch
settles as a non-2xx backend response (`ok = false`) carrying a parseable
JSON array body, and whose nested cache refresh reports 7 documents. -/
def c1Scenario : StepOut :=
  handleFileUploadResolve
    (handleFileUploadStart (initState 0)
      [{ name := "a.txt", size := 1 }, { name := "b.txt", size := 2 }]
      ["x1", "y2"]).state
    ["x1", "y2"]
    (.response false (some [(), ()]))
    (.response true (some { collection := some { document_count := 7 } }))

/-- C1 fails on the code: `handleFileUpload` never consults `response.ok`,
so a non-2xx backend response whose body is valid JSON takes the success
path — both jobs end `completed`, not `error`, and the Collection Summary
Cache is refreshed (the health request is issued and the cache
overwritten). -/
theorem C1_counterexample :
    effStatus c1Scenario.state "x1" = .completed ∧
    effStatus c1Scenario.state "y2" = .completed ∧
    effStatus c1Scenario.state "x1" ≠ .error ∧
    c1Scenario.state.collectionInfo ≠ (initState 0).collectionInfo ∧
    c1Scenario.requests = [.health] := by
  refine ⟨by decide, by decide, by decide, by decide, by decide⟩

/-- C1 amended: if the batch upload request fails by transport error, or
its response body fails to parse as JSON, then every job of the batch ends
in status `error`, the Collection Summary Cache is untouched and no
refresh request is issued (a non-2xx response with a parseable JSON body
is instead treated as success). -/
theorem C1_upload_failure_all_error (s : AppState) (batchIds : List String)
    (r : FetchResult UploadBody) (health : FetchResult HealthBody)
    (hfail : r = .transportError ∨ ∃ ok, r = .response ok none) :
    (∀ id ∈ batchIds,
      effStatus (handleFileUploadResolve s batchIds r health).state id = .error) ∧
    (handleFileUploadResolve s batchIds r health).state.collectionInfo
        = s.collectionInfo ∧
    (handleFileUploadResolve s batchIds r health).requests = [] ∧
    (handleFileUploadResolve s batchIds r health).alerts = [uploadFailureAlert] := by
  have key : ∀ id ∈ batchIds,
      (getStatus (markAll s.processingStatus batchIds .error) id).getD .pending
        = .error := by
    intro id hid
    rw [getStatus_markAll_mem batchIds s.processingStatus .error id hid]
    rfl
  rcases hfail with h | ⟨ok, h⟩ <;> subst h
  · exact ⟨key, rfl, rfl, rfl⟩
  · exact ⟨key, rfl, rfl, rfl⟩

/-- Witness for the amended C1 at a transport error on a one-job batch. -/
theorem C1_upload_failure_witness :
    effStatus (handleFileUploadResolve (initState 0) ["x1"] .transportError
        .transportError).state "x1" = .error :=
  (C1_upload_failure_all_error (initState 0) ["x1"] .transportError .transportError
    (Or.inl rfl)).1 "x1" (by decide)

/-- A query round trip from the initial state (input "hi"), whose fetch
settles as a non-2xx backend response with a parseable JSON body carrying
neither `answer` nor `sources`. -/
def c2Scenario : StepOut :=
  handleSendMessageResolve
    (handleSendMessageStart { initState 0 with inputMessage := "hi" } 1).state 2
    (.response false (some { answer := none, sources := none }))

/-- C2 fails on the code: a backend failure (non-2xx status) whose error
body is valid JSON is not caught by the `catch`, so the appended assistant
message carries `data.answer` — here absent — rather than the fixed
failure notice. -/
theorem C2_counterexample :
    c2Scenario.state.messages
      = [greetingMessage 0, userMessageOf "hi" 1,
          { id := "3", role := .assistant, content := none, sources := some [],
            timestamp := 2 }] ∧
    (none : Option String) ≠ some failureNotice := by
  refine ⟨by decide, by decide⟩

/-- C2 amended: on a transport error, or when the response body fails to
parse as JSON, exactly one assistant message is appended whose content is
the fixed failure notice and which carries no sources, and `isThinking`
is set back to false; moreover `isThinking` is set back to false for
every settled round trip, whatever the response. -/
theorem C2_query_failure_notice (s : AppState) (now : Nat) (r : FetchResult QueryBody)
    (hfail : r = .transportError ∨ ∃ ok, r = .response ok none) :
    (handleSendMessageResolve s now r).state.messages
      = s.messages ++ [Message.mk (toString (now + 1)) .assistant
          (some failureNotice) none now] ∧
    (handleSendMessageResolve s now r).state.isThinking = false ∧
    (∀ r2 : FetchResult QueryBody,
      (handleSendMessageResolve s now r2).state.isThinking = false) := by
  rcases hfail with h | ⟨ok, h⟩ <;> subst h
  · exact ⟨rfl, rfl, fun r2 => rfl⟩
  · exact ⟨rfl, rfl, fun r2 => rfl⟩

/-- Witness for the amended C2 at a transport error from the initial
state. -/
theorem C2_query_failure_witness :
    (handleSendMessageResolve (initState 0) 5 .transportError).state.messages
      = (initState 0).messages
          ++ [Message.mk "6" .assistant (some failureNotice) none 5] :=
  (C2_query_failure_notice (initState 0) 5 .transportError (Or.inl rfl)).1

/-- C6 fails on the code: `loadCollectionInfo` never consults
`response.ok`, so a non-2xx health response whose JSON body contains a
`collection.document_count` overwrites the cached summary. -/
theorem C6_counterexample :
    loadCollectionInfo { document_count := 5, total_chunks := 5 }
        (.response false (some { collection := some { document_count := 3 } }))
      = { document_count := 3, total_chunks := 3 } ∧
    ({ document_count := 3, total_chunks := 3 } : CollectionSummary)
      ≠ { document_count := 5, total_chunks := 5 } := by
  refine ⟨rfl, by decide⟩

/-- C6 amended: the cached summary is untouched when the health fetch
fails by transport error, when its body fails to parse as JSON, or when
the parsed body lacks the `collection` object (the resulting property
access throws and is swallowed); and a refresh never surfaces an alert or
error to the user.  A non-2xx response whose parseable body contains
`collection.document_count` does overwrite the cache. -/
theorem C6_refresh_failure_keeps_cache (prev : CollectionSummary)
    (r : FetchResult HealthBody)
    (hfail : r = .transportError ∨ (∃ ok, r = .response ok none) ∨
      (∃ ok body, r = .response ok (some body) ∧ body.collection = none)) :
    loadCollectionInfo prev r = prev ∧
    (∀ (s : AppState) (r2 : FetchResult HealthBody),
      (healthRefresh s r2).alerts = [] ∧ (healthRefresh s r2).requests = []) := by
  refine ⟨?_, fun s r2 => ⟨rfl, rfl⟩⟩
  rcases hfail with h | ⟨ok, h⟩ | ⟨ok, body, h, hcoll⟩ <;> subst h
  · rfl
  · rfl
  · simp [loadCollectionInfo, hcoll]

/-- Witness for the amended C6 at a transport error. -/
theorem C6_refresh_failure_witness :
    loadCollectionInfo { document_count := 5, total_chunks := 5 } .transportError
      = { document_count := 5, total_chunks := 5 } :=
  (C6_refresh_failure_keeps_cache { document_count := 5, total_chunks := 5 }
    .transportError (Or.inl rfl)).1

/-- C7: the transcript is append-only — every orchestrator step either
leaves the message sequence unchanged or extends it at the end; the
initial transcript is the single fixed assistant greeting with no
citations; a query that passes the guard appends exactly its user message
at the end and raises `isThinking`; while `isThinking` is raised no step
other than that query's resolution touches the transcript; and the
resolution appends exactly one assistant message (so the resolved user
message is immediately followed by exactly one assistant message). -/
theorem C7_transcript_append_only :
    (∀ (s : AppState) (op : Op),
      ∃ suffix, (step s op).state.messages = s.messages ++ suffix) ∧
    (∀ t0 : Nat, (initState t0).messages = [greetingMessage t0] ∧
      (greetingMessage t0).role = .assistant ∧ (greetingMessage t0).sources = none) ∧
    (∀ (s : AppState) (now : Nat), jsTrim s.inputMessage ≠ "" → s.isThinking = false →
      (step s (.sendStart now)).state.messages
          = s.messages ++ [userMessageOf s.inputMessage now] ∧
      (step s (.sendStart now)).state.isThinking = true) ∧
    (∀ (s : AppState) (op : Op), s.isThinking = true →
      (∀ (now : Nat) (r : FetchResult QueryBody), op ≠ .sendResolve now r) →
      (step s op).state.messages = s.messages) ∧
    (∀ (s : AppState) (now : Nat) (r : FetchResult QueryBody),
      (step s (.sendResolve now r)).state.messages
          = s.messages ++ [assistantMessageOf now r] ∧
      (assistantMessageOf now r).role = .assistant ∧
      (step s (.sendResolve now r)).state.isThinking = false) := by
  refine ⟨?_, fun t0 => ⟨rfl, rfl, rfl⟩, ?_, ?_, ?_⟩
  · intro s op
    cases op with
    | sendStart now =>
        show ∃ suffix, (handleSendMessageStart s now).state.messages = _
        unfold handleSendMessageStart
        by_cases hg : jsTrim s.inputMessage = "" ∨ s.isThinking = true
        · rw [if_pos hg]
          exact ⟨[], by simp⟩
        · rw [if_neg hg]
          exact ⟨[userMessageOf s.inputMessage now], rfl⟩
    | sendResolve now r => exact ⟨[assistantMessageOf now r], rfl⟩
    | uploadStart files ids =>
        show ∃ suffix, (handleFileUploadStart s files ids).state.messages = _
        unfold handleFileUploadStart
        by_cases hg : files.isEmpty = true
        · rw [if_pos hg]
          exact ⟨[], by simp⟩
        · rw [if_neg hg]
          exact ⟨[], by simp [uploadMarkProcessing, uploadAppend]⟩
    | uploadResolve batchIds r health =>
        cases r with
        | transportError => exact ⟨[], by simp [step, handleFileUploadResolve]⟩
        | response ok body =>
            cases body with
            | none => exact ⟨[], by simp [step, handleFileUploadResolve]⟩
            | some results => exact ⟨[], by simp [step, handleFileUploadResolve]⟩
    | removeJob fileId => exact ⟨[], by simp [step, removeFile]⟩
    | refreshResolve r => exact ⟨[], by simp [step, healthRefresh]⟩
  · intro s now hq ht
    show (handleSendMessageStart s now).state.messages = _
        ∧ (handleSendMessageStart s now).state.isThinking = true
    unfold handleSendMessageStart
    rw [if_neg (by
      rintro (h | h)
      · exact hq h
      · rw [ht] at h
        cases h)]
    exact ⟨rfl, rfl⟩
  · intro s op hthink hne
    cases op with
    | sendStart now =>
        show (handleSendMessageStart s now).state.messages = s.messages
        unfold handleSendMessageStart
        rw [if_pos (Or.inr hthink)]
    | sendResolve now r => exact absurd rfl (hne now r)
    | uploadStart files ids =>
        show (handleFileUploadStart s files ids).state.messages = s.messages
        unfold handleFileUploadStart
        by_cases hg : files.isEmpty = true
        · rw [if_pos hg]
        · rw [if_neg hg]
          rfl
    | uploadResolve batchIds r health =>
        cases r with
        | transportError => rfl
        | response ok body =>
            cases body with
            | none => rfl
            | some results => rfl
    | removeJob fileId => rfl
    | refreshResolve r => rfl
  · intro s now r
    refine ⟨rfl, ?_, rfl⟩
    cases r with
    | transportError => rfl
    | response ok body =>
        cases body with
        | none => rfl
        | some b => rfl

/-- A session state whose input buffer holds the text "hi". -/
def typedInputState : AppState :=
  { initState 0 with inputMessage := "hi" }

/-- Witness for C7: from a state with input "hi", passing the guard
appends exactly the user message. -/
theorem C7_transcript_append_only_witness :
    (step typedInputState (.sendStart 3)).state.messages
      = typedInputState.messages ++ [userMessageOf "hi" 3] :=
  (C7_transcript_append_only.2.2.1 typedInputState 3 (by decide) rfl).1

/-- C8: a successful query round trip appends, after the user message, one
assistant message whose content is the response's `answer` and whose
sources are the response's citation list, defaulting to the empty list
when absent; and the awaiting-response flag returns to false. -/
theorem C8_success_roundtrip (s : AppState) (now now2 : Nat) (body : QueryBody)
    (hq : jsTrim s.inputMessage ≠ "") (ht : s.isThinking = false) :
    (handleSendMessageResolve (handleSendMessageStart s now).state now2
        (.response true (some body))).state.messages
      = s.messages ++ [userMessageOf s.inputMessage now,
          Message.mk (toString (now2 + 1)) .assistant body.answer
            (some (body.sources.getD [])) now2] ∧
    (handleSendMessageResolve (handleSendMessageStart s now).state now2
        (.response true (some body))).state.isThinking = false := by
  have hstart : (handleSendMessageStart s now).state.messages
      = s.messages ++ [userMessageOf s.inputMessage now] := by
    unfold handleSendMessageStart
    rw [if_neg (by
      rintro (h | h)
      · exact hq h
      · rw [ht] at h
        cases h)]
  constructor
  · show (handleSendMessageStart s now).state.messages
        ++ [assistantMessageOf now2 (.response true (some body))] = _
    rw [hstart]
    simp [assistantMessageOf]
  · rfl

/-- The query response of the C8 scenario: answer "30 days" with one
citation of policy.pdf page 3 at relevance 0.92. -/
def refundResponse : QueryBody :=
  { answer := some "30 days"
    sources := some [{ filename := "policy.pdf", page := 3, relevance := 92 / 100 }] }

/-- A session state whose input buffer holds the C8 scenario query. -/
def refundQueryState : AppState :=
  { initState 0 with inputMessage := "What is the refund policy?" }

/-- Witness for C8: the spec's scenario — querying "What is the refund
policy?" against a backend answering "30 days" with one citation yields
exactly that user/assistant pair. -/
theorem C8_success_roundtrip_witness :
    (handleSendMessageResolve (handleSendMessageStart refundQueryState 10).state 20
        (.response true (some refundResponse))).state.messages
      = refundQueryState.messages
          ++ [userMessageOf "What is the refund policy?" 10,
            Message.mk "21" .assistant (some "30 days")
              (some [{ filename := "policy.pdf", page := 3, relevance := 92 / 100 }]) 20] :=
  (C8_success_roundtrip refundQueryState 10 20 refundResponse (by decide) rfl).1

/-- The cached summary keeps chunk count equal to document count across
any settled refresh. -/
theorem loadCollectionInfo_preserves_eq (prev : CollectionSummary)
    (r : FetchResult HealthBody)
    (h : prev.total_chunks = prev.document_count) :
    (loadCollectionInfo prev r).total_chunks
      = (loadCollectionInfo prev r).document_count := by
  cases r with
  | transportError => exact h
  | response ok body =>
      cases body with
      | none => exact h
      | some b =>
          cases hb : b.collection with
          | none => simpa [loadCollectionInfo, hb] using h
          | some c => simp [loadCollectionInfo, hb]

/-- Every orchestrator step preserves equality of the two cached counts. -/
theorem step_preserves_chunks_eq (s : AppState) (op : Op)
    (h : s.collectionInfo.total_chunks = s.collectionInfo.document_count) :
    (step s op).state.collectionInfo.total_chunks
      = (step s op).state.collectionInfo.document_count := by
  cases op with
  | sendStart now =>
      show (handleSendMessageStart s now).state.collectionInfo.total_chunks
          = (handleSendMessageStart s now).state.collectionInfo.document_count
      unfold handleSendMessageStart
      by_cases hg : jsTrim s.inputMessage = "" ∨ s.isThinking = true
      · rw [if_pos hg]
        exact h
      · rw [if_neg hg]
        exact h
  | sendResolve now r => exact h
  | uploadStart files ids =>
      show (handleFileUploadStart s files ids).state.collectionInfo.total_chunks
          = (handleFileUploadStart s files ids).state.collectionInfo.document_count
      unfold handleFileUploadStart
      by_cases hg : files.isEmpty = true
      · rw [if_pos hg]
        exact h
      · rw [if_neg hg]
        exact h
  | uploadResolve batchIds r health =>
      cases r with
      | transportError => exact h
      | response ok body =>
          cases body with
          | none => exact h
          | some results => exact loadCollectionInfo_preserves_eq s.collectionInfo health h
  | removeJob fileId => exact h
  | refreshResolve r => exact loadCollectionInfo_preserves_eq s.collectionInfo r h

/-- C10: in every reachable state the cached chunk count equals the cached
document count — both start at 0, and every refresh that reaches the write
stores the response's `document_count` in both fields. -/
theorem C10_chunks_mirror_documents (s : AppState) (hs : Reachable s) :
    s.collectionInfo.total_chunks = s.collectionInfo.document_count ∧
    (∀ t0 : Nat, (initState t0).collectionInfo
        = { document_count := 0, total_chunks := 0 }) ∧
    (∀ (prev : CollectionSummary) (ok : Bool) (d : Int),
      loadCollectionInfo prev
          (.response ok (some { collection := some { document_count := d } }))
        = { document_count := d, total_chunks := d }) := by
  refine ⟨?_, fun t0 => rfl, fun prev ok d => rfl⟩
  induction hs with
  | init t0 => rfl
  | next op hr ih => exact step_preserves_chunks_eq _ op ih

/-- Witness for C10 at the initial state. -/
theorem C10_chunks_mirror_documents_witness :
    (initState 0).collectionInfo.total_chunks
      = (initState 0).collectionInfo.document_count :=
  (C10_chunks_mirror_documents (initState 0) (Reachable.init 0)).1

end Kreps
